import Mathlib

/-!
# Verification of `word_of_day.py`

A shallow embedding of the extraction and formatting core of
`src/word_of_day.py` (functions `get_word_of_the_day`, lines 26–88, and
`format_sms_message`, lines 91–115).  The network fetch, SMTP transport and
environment handling are external I/O glue and are not part of the core.

Strings are modelled as Lean `String` (a list of unicode code points, matching
Python's `str`, where `len` counts code points).  Python's regex searches are
embedded as explicit scanning functions that reproduce the deterministic
backtracking behaviour of the three concrete patterns used by the source.
Case mapping (`upper`, `lower`) is modelled per-code-point with `Char.toUpper`
/ `Char.toLower` (faithful on the ASCII range the feed uses).
-/

/-- Python `\s` whitespace on the ASCII range: space, tab, newline, carriage
return, vertical tab, form feed. -/
def pyWs (c : Char) : Bool :=
  c = ' ' || c = '\t' || c = '\n' || c = '\r' || c = '\x0b' || c = '\x0c'

/-- Python `\w` word character on the ASCII range: alphanumeric or underscore. -/
def pyWordChar (c : Char) : Bool :=
  c.isAlphanum || c = '_'

/-- `true` when the character is not `<` (the class `[^<]`). -/
def nonLt (c : Char) : Bool := c ≠ '<'

/-- Python `str.strip()` on a character list: drop whitespace at both ends. -/
def pyStripL (l : List Char) : List Char :=
  ((l.dropWhile pyWs).reverse.dropWhile pyWs).reverse

/-- Python `str.strip()`. -/
def pyStrip (s : String) : String := ⟨pyStripL s.data⟩

/-- Python `str.rstrip('.')`: drop every trailing period. -/
def rstripDots (s : String) : String :=
  ⟨(s.data.reverse.dropWhile (fun c => c = '.')).reverse⟩

/-- Python `str.lower()` (ASCII model). -/
def lowerS (s : String) : String := ⟨s.data.map Char.toLower⟩

/-- Python `str.upper()` (ASCII model). -/
def upperS (s : String) : String := ⟨s.data.map Char.toUpper⟩

/-- Is `needle` a prefix of `hay`? (case-sensitive). -/
def prefixAt : List Char → List Char → Bool
  | [], _ => true
  | _ :: _, [] => false
  | a :: as, b :: bs => a = b && prefixAt as bs

/-- Is `needle` a prefix of `hay`, comparing case-insensitively
(models `re.IGNORECASE` literal matching)? -/
def ciPrefixAt : List Char → List Char → Bool
  | [], _ => true
  | _ :: _, [] => false
  | a :: as, b :: bs => a.toLower = b.toLower && ciPrefixAt as bs

/-- Does `hay` contain `needle` as a contiguous substring?
(models Python's `needle in hay`). -/
def containsL (hay needle : List Char) : Bool :=
  match hay with
  | [] => needle.isEmpty
  | _ :: rest => prefixAt needle hay || containsL rest needle

/-- Python `needle in hay` on strings. -/
def containsS (hay needle : String) : Bool := containsL hay.data needle.data

/-- Python `hay.startswith(needle)`. -/
def startsWithS (hay needle : String) : Bool := prefixAt needle.data hay.data

/-- Split `l` at the first occurrence of `needle`: returns the part strictly
before the match and the part strictly after it. -/
def splitOnce (needle : List Char) : List Char → Option (List Char × List Char)
  | [] => if needle.isEmpty then some ([], []) else none
  | c :: rest =>
    if prefixAt needle (c :: rest) then some ([], (c :: rest).drop needle.length)
    else
      match splitOnce needle rest with
      | some (pre, post) => some (c :: pre, post)
      | none => none

/-- Python slice `s[:i]` with Python's negative-index semantics:
a negative `i` counts from the end (clamped at `0`). -/
def pySliceTo (s : String) (i : Int) : String :=
  let n : Int := if i < 0 then (s.length : Int) + i else i
  ⟨s.data.take n.toNat⟩

/-- `definition[0].upper() + definition[1:]`: upper-case the first character. -/
def capFirst (s : String) : String :=
  match s.data with
  | [] => ""
  | c :: rest => ⟨c.toUpper :: rest⟩

/-- One pass of `re.sub(r'<[^>]+>', '', s)`: at each `<` that is followed by at
least one non-`>` character and then a `>`, the whole `<...>` run is removed and
scanning resumes after the `>`; any other character is kept.  The fuel argument
only bounds recursion; `fuel = length` always suffices because every step
consumes at least one character. -/
def stripTagsAux : Nat → List Char → List Char
  | 0, l => l
  | _ + 1, [] => []
  | fuel + 1, c :: rest =>
    if c = '<' then
      match rest with
      | [] => ['<']
      | d :: _ =>
        if d = '>' then '<' :: stripTagsAux fuel rest
        else
          match splitOnce ['>'] rest with
          | some (_, post) => stripTagsAux fuel post
          | none => '<' :: stripTagsAux fuel rest
    else c :: stripTagsAux fuel rest

/-- `re.sub(r'<[^>]+>', '', s)`: delete all HTML-like tags. -/
def pyStripTags (s : String) : String := ⟨stripTagsAux s.data.length s.data⟩

/-- Model of Python `html.unescape`, restricted to the common entity subset
(`&amp;` `&lt;` `&gt;` `&quot;` `&#39;`) that the feed uses; none of the claims
depend on the full HTML5 entity table. -/
def unescapeL : List Char → List Char
  | '&' :: 'a' :: 'm' :: 'p' :: ';' :: rest => '&' :: unescapeL rest
  | '&' :: 'l' :: 't' :: ';' :: rest => '<' :: unescapeL rest
  | '&' :: 'g' :: 't' :: ';' :: rest => '>' :: unescapeL rest
  | '&' :: 'q' :: 'u' :: 'o' :: 't' :: ';' :: rest => '"' :: unescapeL rest
  | '&' :: '#' :: '3' :: '9' :: ';' :: rest => Char.ofNat 39 :: unescapeL rest
  | c :: rest => c :: unescapeL rest
  | [] => []

/-- `html.unescape` on strings (common-entity model). -/
def pyUnescape (s : String) : String := ⟨unescapeL s.data⟩

/-- The literal `<p>` (the `findall` pattern is case-sensitive). -/
def openPTag : List Char := ['<', 'p', '>']

/-- The literal `</p>`. -/
def closePTag : List Char := ['<', '/', 'p', '>']

/-- The literal `<em>`. -/
def emTag : List Char := ['<', 'e', 'm', '>']

/-- The literal `</em>`. -/
def emClose : List Char := ['<', '/', 'e', 'm', '>']

/-- `re.findall(r'<p>(.*?)</p>', s, re.DOTALL)`: repeatedly take the text
between the next `<p>` and the first `</p>` after it (lazy `.*?`), resuming
after the `</p>`.  `fuel = length` suffices: every round consumes at least one
character. -/
def parasAux : Nat → List Char → List (List Char)
  | 0, _ => []
  | fuel + 1, l =>
    match splitOnce openPTag l with
    | none => []
    | some (_, a1) =>
      match splitOnce closePTag a1 with
      | none => []
      | some (content, a2) => content :: parasAux fuel a2

/-- All `<p>…</p>` inner texts of the description. -/
def findParagraphs (s : String) : List String :=
  (parasAux s.data.length s.data).map (fun l => ⟨l⟩)

/-- Attempt the tail `[^\\]+\\[^<]*<em>(\w+)</em>` of the part-of-speech
pattern right after a leading backslash.  Greedy runs are committed: each
character class is followed by a literal it cannot match, so regex
backtracking cannot recover from a failure. -/
def posTryAt (rest : List Char) : Option (List Char) :=
  let seg := rest.takeWhile (fun c => c ≠ '\\')
  if seg.isEmpty then none
  else
    match rest.drop seg.length with
    | '\\' :: after2 =>
      let skip := after2.dropWhile nonLt
      if prefixAt emTag skip then
        let after3 := skip.drop 4
        let w := after3.takeWhile pyWordChar
        if w.isEmpty then none
        else if prefixAt emClose (after3.drop w.length) then some w
        else none
      else none
    | _ => none

/-- `re.search(r'\\[^\\]+\\[^<]*<em>(\w+)</em>', s)`: try the pattern at each
backslash from the left, returning the first captured group. -/
def posFrom : List Char → Option (List Char)
  | [] => none
  | c :: rest =>
    if c = '\\' then
      match posTryAt rest with
      | some g => some g
      | none => posFrom rest
    else posFrom rest

/-- The part-of-speech search of line 36 of the source. -/
def posSearch (s : String) : Option String := (posFrom s.data).map (fun l => ⟨l⟩)

/-- The lazy group suffix `(?:<[^>]+>[^<]*)*?</p>` of the definition pattern,
case-insensitively.  At each step the lazy loop first tries to close with
`</p>`; otherwise it must parse one complete `<...>` tag followed by a maximal
non-`<` run, both committed (a shorter run would put a literal `<` against a
non-`<` character).  Returns the characters the group absorbs before `</p>`.
`fuel = length` suffices: every round consumes at least one character. -/
def scanGroupAux : Nat → List Char → Option (List Char)
  | 0, _ => none
  | fuel + 1, l =>
    if ciPrefixAt closePTag l then some []
    else
      match l with
      | '<' :: rest =>
        match rest with
        | [] => none
        | d :: _ =>
          if d = '>' then none
          else
            match splitOnce ['>'] rest with
            | none => none
            | some (pre, post) =>
              let after := post.takeWhile nonLt
              match scanGroupAux fuel (post.drop after.length) with
              | some mid => some ('<' :: (pre ++ '>' :: (after ++ mid)))
              | none => none
      | _ => none

/-- Attempt `\s*<em>WORD</em>\s+([^<]+(?:<[^>]+>[^<]*)*?)</p>` (with
`re.IGNORECASE`) right after a `<p>`.  The only live backtracking point is the
boundary between the greedy `\s+` and the greedy `[^<]+`: when the character
after the whitespace run is `<` (so `[^<]+` cannot start there), the regex
gives the last whitespace character back to the group, which therefore needs at
least two whitespace characters in that case. -/
def defTryAt (w : List Char) (afterP : List Char) : Option (List Char) :=
  let s1 := afterP.dropWhile pyWs
  if ciPrefixAt emTag s1 then
    let s2 := s1.drop 4
    if ciPrefixAt w s2 then
      let s3 := s2.drop w.length
      if ciPrefixAt emClose s3 then
        let s4 := s3.drop 5
        let wsCnt := (s4.takeWhile pyWs).length
        if wsCnt = 0 then none
        else
          let s5 := s4.drop wsCnt
          let chunk := s5.takeWhile nonLt
          if chunk.isEmpty && decide (wsCnt < 2) then none
          else
            match scanGroupAux (s5.drop chunk.length).length (s5.drop chunk.length) with
            | none => none
            | some mid =>
              let wsPart := if chunk.isEmpty then (s4.drop (wsCnt - 1)).take 1 else []
              some (wsPart ++ (chunk ++ mid))
      else none
    else none
  else none

/-- `re.search` driver for the definition pattern: try at every
(case-insensitive) `<p>` from the left, advancing one character on failure. -/
def defFrom (w : List Char) : List Char → Option (List Char)
  | [] => none
  | c :: rest =>
    if ciPrefixAt openPTag (c :: rest) then
      match defTryAt w ((c :: rest).drop 3) with
      | some g => some g
      | none => defFrom w rest
    else defFrom w rest

/-- The structure-aware definition search of lines 42–46 of the source:
`re.search(rf'<p>\s*<em>{re.escape(word)}</em>\s+([^<]+(?:<[^>]+>[^<]*)*?)</p>',
description, re.IGNORECASE)` (escaping makes the word match literally). -/
def defSearch (word s : String) : Option String :=
  (defFrom word.data s.data).map (fun l => ⟨l⟩)

/-- Attempt `\s*([^<]+)` right after a `//`.  As in `defTryAt`, when the first
non-whitespace character is `<` (or the string ends in whitespace) the greedy
`\s*` gives its last whitespace character back to the group. -/
def exTryAt (rest : List Char) : Option (List Char) :=
  let wsCnt := (rest.takeWhile pyWs).length
  let s5 := rest.drop wsCnt
  match s5 with
  | c :: _ =>
    if c = '<' then
      if 1 ≤ wsCnt then some ((rest.drop (wsCnt - 1)).take 1) else none
    else some (s5.takeWhile nonLt)
  | [] => if 1 ≤ wsCnt then some ((rest.drop (wsCnt - 1)).take 1) else none

/-- `re.search(r'//\s*([^<]+)', s)`: try the pattern at each `//` from the
left (advancing a single character on failure), returning the first group. -/
def exFrom : List Char → Option (List Char)
  | [] => none
  | c :: rest =>
    if c = '/' ∧ rest.take 1 = ['/'] then
      match exTryAt (rest.drop 1) with
      | some g => some g
      | none => exFrom rest
    else exFrom rest

/-- The example search of line 72 of the source. -/
def exSearch (s : String) : Option String := (exFrom s.data).map (fun l => ⟨l⟩)

theorem splitOnce_post_length {needle : List Char} (hn : needle ≠ []) :
    ∀ l pre post, splitOnce needle l = some (pre, post) → post.length < l.length := by
  intro l
  induction l with
  | nil =>
    intro pre post h
    simp only [splitOnce] at h
    split at h
    · simp_all
    · exact absurd h (by simp)
  | cons c rest ih =>
    intro pre post h
    simp only [splitOnce] at h
    split at h
    · rename_i hpre
      obtain ⟨-, h2⟩ := Prod.mk.injEq .. ▸ Option.some.injEq .. ▸ h
      subst h2
      have : needle.length ≥ 1 := by
        cases needle with
        | nil => exact absurd rfl hn
        | cons a as => simp
      calc ((c :: rest).drop needle.length).length
          = (c :: rest).length - needle.length := by simp
        _ < (c :: rest).length := by simp; omega
    · revert h
      cases hrec : splitOnce needle rest with
      | none => intro h; exact absurd h (by simp)
      | some pr =>
        intro h
        obtain ⟨pre', post'⟩ := pr
        obtain ⟨-, h2⟩ := Prod.mk.injEq .. ▸ Option.some.injEq .. ▸ h
        subst h2
        have := ih pre' post' hrec
        simp only [List.length_cons]
        omega

/-- A feed entry as the extraction core consumes it: the `title` and
`description` fields of `feed.entries[0]` (the fetch itself is external I/O). -/
structure RawEntry where
  title : String
  description : String
deriving DecidableEq, Repr

/-- The structured record assembled at lines 83–88 of the source. -/
structure WordRecord where
  word : String
  part_of_speech : String
  definition : String
  «example» : String
deriving DecidableEq, Repr

/-- The paragraph filter of lines 62–67: the cleaned paragraph is kept when it
is non-empty, does not start with `//`, contains neither `'See the entry'` nor
`'Examples:'`, contains the word case-insensitively, and is longer than 30. -/
def defCandidate (word cleanP : String) : Bool :=
  !(cleanP == "") &&
  !(startsWithS cleanP "//") &&
  !(containsS cleanP "See the entry") &&
  !(containsS cleanP "Examples:") &&
  containsS (lowerS cleanP) (lowerS word) &&
  decide (30 < cleanP.length)

/-- The fallback loop of lines 56–69: clean each `<p>` paragraph in order
(strip tags, decode entities, strip whitespace) and return the first one that
passes `defCandidate`, or the empty string. -/
def fallbackScan (word : String) : List String → String
  | [] => ""
  | p :: rest =>
    let cleanP := pyStrip (pyUnescape (pyStripTags p))
    if defCandidate word cleanP then cleanP else fallbackScan word rest

/-- The extraction core of `get_word_of_the_day` (lines 26–88 of the source),
as a function of the first feed entry.  The fetch (lines 20–24) is external
I/O glue outside the specified core. -/
def get_word_of_the_day (entry : RawEntry) : WordRecord :=
  let word := pyStrip entry.title
  let description := entry.description
  let part_of_speech :=
    match posSearch description with
    | some g => pyStrip g
    | none => ""
  let definition :=
    match defSearch word description with
    | some g =>
      let d := pyStripTags g
      let d := pyStrip (pyUnescape d)
      if d = "" then d else capFirst d
    | none => fallbackScan word (findParagraphs description)
  let exampleVal :=
    match exSearch description with
    | some g =>
      let x := pyStripTags g
      let x := pyStrip (pyUnescape x)
      let x := rstripDots x
      "\"" ++ (x ++ ".\"")
    | none => ""
  { word := word, part_of_speech := part_of_speech,
    definition := definition, «example» := exampleVal }

/-- `format_sms_message` (lines 91–115 of the source).  Lengths are in code
points, matching Python's `len`; the truncation index is an `Int` because
`120 - len(message)` can go negative, in which case Python's negative slice
semantics apply (`pySliceTo`). -/
def format_sms_message (word_data : WordRecord) : String :=
  let word := upperS word_data.word
  let pos := word_data.part_of_speech
  let definition := word_data.definition
  let exampleVal := word_data.«example»
  let message := "Word of the Day: " ++ (word ++ "\n\n")
  let message := if pos ≠ "" then message ++ ("(" ++ (pos ++ ") ")) else message
  let maxDefLen : Int := 120 - (message.length : Int)
  let definition :=
    if (definition.length : Int) > maxDefLen
    then pySliceTo definition (maxDefLen - 3) ++ "..."
    else definition
  let message := message ++ definition
  let message :=
    if exampleVal ≠ "" ∧ message.length + exampleVal.length < 300
    then message ++ ("\n\n" ++ exampleVal)
    else message
  message

theorem strdata_append (s t : String) : (s ++ t).data = s.data ++ t.data := by
  cases s; cases t; rfl

theorem strlen_append (s t : String) : (s ++ t).length = s.length + t.length := by
  cases s; cases t; simp [String.length, String.append]

theorem strlen_mk (l : List Char) : (String.mk l).length = l.length := rfl

theorem str_append_empty (s : String) : s ++ "" = s := by
  apply String.ext
  rw [strdata_append]
  simp [String.data]

theorem str_ne_empty_iff_data (s : String) : s ≠ "" ↔ s.data ≠ [] := by
  constructor
  · intro h hd
    exact h (String.ext (by simpa using hd))
  · intro h hd
    exact h (by simp [hd])

theorem gw_word (e : RawEntry) : (get_word_of_the_day e).word = pyStrip e.title := rfl

theorem gw_pos (e : RawEntry) :
    (get_word_of_the_day e).part_of_speech =
      (posSearch e.description).elim "" (fun g => pyStrip g) := by
  cases h : posSearch e.description <;> simp [get_word_of_the_day, h]

theorem gw_def (e : RawEntry) :
    (get_word_of_the_day e).definition =
      (defSearch (pyStrip e.title) e.description).elim
        (fallbackScan (pyStrip e.title) (findParagraphs e.description))
        (fun g =>
          if pyStrip (pyUnescape (pyStripTags g)) = "" then pyStrip (pyUnescape (pyStripTags g))
          else capFirst (pyStrip (pyUnescape (pyStripTags g)))) := by
  cases h : defSearch (pyStrip e.title) e.description <;> simp [get_word_of_the_day, h]

theorem gw_example (e : RawEntry) :
    (get_word_of_the_day e).«example» =
      (exSearch e.description).elim ""
        (fun g => "\"" ++ (rstripDots (pyStrip (pyUnescape (pyStripTags g))) ++ ".\"")) := by
  cases h : exSearch e.description <;> simp [get_word_of_the_day, h]

theorem fallbackScan_result (w : String) :
    ∀ ps : List String, fallbackScan w ps ≠ "" →
      defCandidate w (fallbackScan w ps) = true ∧
      ∃ p : String, fallbackScan w ps = pyStrip (pyUnescape (pyStripTags p)) := by
  intro ps
  induction ps with
  | nil => intro h; exact absurd rfl h
  | cons p rest ih =>
    intro h
    by_cases hc : defCandidate w (pyStrip (pyUnescape (pyStripTags p))) = true
    · refine ⟨?_, p, ?_⟩ <;> simp [fallbackScan, hc]
    · have hres : fallbackScan w (p :: rest) = fallbackScan w rest := by
        simp only [fallbackScan]
        rw [if_neg (by simpa using hc)]
      rw [hres] at h ⊢
      exact ih h

/-- The message built by `format_sms_message` before the definition is added:
the header line, the blank line, and the optional `(pos) ` prefix
(lines 99–102 of the source). -/
def sms_header_pos (r : WordRecord) : String :=
  let m := "Word of the Day: " ++ (upperS r.word ++ "\n\n")
  if r.part_of_speech ≠ "" then m ++ ("(" ++ (r.part_of_speech ++ ") ")) else m

/-- The dynamic definition budget `120 - len(message)` of line 105. -/
def defBudget (r : WordRecord) : Int := 120 - ((sms_header_pos r).length : Int)

/-- The definition segment actually placed in the message (lines 106–107):
truncated via Python slicing when it exceeds the budget. -/
def truncatedDef (r : WordRecord) : String :=
  if ((r.definition.length : Int)) > defBudget r
  then pySliceTo r.definition (defBudget r - 3) ++ "..."
  else r.definition

/-- The message right after the definition is appended (line 109). -/
def sms_before_example (r : WordRecord) : String :=
  sms_header_pos r ++ truncatedDef r

theorem format_decomp (r : WordRecord) :
    format_sms_message r =
      if r.«example» ≠ "" ∧ (sms_before_example r).length + r.«example».length < 300
      then sms_before_example r ++ ("\n\n" ++ r.«example»)
      else sms_before_example r := rfl

/-- Claim C2 counterexample: on a whitespace-only title the code does not fail
with any `MissingWord` error — `get_word_of_the_day` returns a full record
whose `word` field is the empty string (there is no empty-title check at
lines 26–29 of the source). -/
theorem C2_counterexample :
    get_word_of_the_day ⟨"   ", "some feed text"⟩ =
      { word := "", part_of_speech := "", definition := "", «example» := "" } := by
  decide

/-- Claim C2 as amended: for every raw entry whose title is empty or
whitespace-only, extraction does not fail; it returns a record whose `word`
field is the empty string. -/
theorem C2_empty_title_no_failure (e : RawEntry) (h : pyStrip e.title = "") :
    (get_word_of_the_day e).word = "" := by
  rw [gw_word]; exact h

theorem C2_empty_title_no_failure_witness :
    pyStrip "   " = "" ∧ (get_word_of_the_day ⟨"   ", "some feed text"⟩).word = "" :=
  ⟨by decide, C2_empty_title_no_failure ⟨"   ", "some feed text"⟩ (by decide)⟩

/-- Claim C4 counterexample: on a description with no recognizable structure
the definition is left empty, even though a prefix of the cleaned description
would have been non-empty — the code has no last-resort prefix fallback
(lines 54–69 of the source end with the paragraph scan). -/
theorem C4_counterexample :
    (get_word_of_the_day ⟨"Ersatz", "just plain text with no structure at all"⟩).definition
        = "" ∧
      pyStrip (pyUnescape (pyStripTags "just plain text with no structure at all")) ≠ "" := by
  decide

/-- Claim C4 as amended: when both the structure-aware match and the
paragraph-scanning fallback fail, extraction still succeeds (the word field is
the trimmed title) but the definition is the empty string; there is no further
fallback to a prefix of the cleaned description. -/
theorem C4_no_prefix_fallback (e : RawEntry)
    (h1 : defSearch (pyStrip e.title) e.description = none)
    (h2 : fallbackScan (pyStrip e.title) (findParagraphs e.description) = "") :
    (get_word_of_the_day e).word = pyStrip e.title ∧
      (get_word_of_the_day e).definition = "" := by
  refine ⟨gw_word e, ?_⟩
  rw [gw_def, h1]
  exact h2

theorem C4_no_prefix_fallback_witness :
    defSearch (pyStrip "Ersatz") "just plain text with no structure at all" = none ∧
      fallbackScan (pyStrip "Ersatz")
        (findParagraphs "just plain text with no structure at all") = "" ∧
      ((get_word_of_the_day ⟨"Ersatz", "just plain text with no structure at all"⟩).word
          = pyStrip "Ersatz" ∧
        (get_word_of_the_day ⟨"Ersatz", "just plain text with no structure at all"⟩).definition
          = "") :=
  ⟨by decide, by decide,
    C4_no_prefix_fallback ⟨"Ersatz", "just plain text with no structure at all"⟩
      (by decide) (by decide)⟩

/-- Claim C7: the formatter appends the example, preceded by a blank line,
exactly when the example is non-empty and the length of the accumulated
message (header, part-of-speech prefix and definition) plus the length of the
example is strictly below 300; otherwise the message stops at the definition. -/
theorem C7_example_inclusion (r : WordRecord) :
    format_sms_message r =
      if r.«example» ≠ "" ∧ (sms_before_example r).length + r.«example».length < 300
      then sms_before_example r ++ ("\n\n" ++ r.«example»)
      else sms_before_example r :=
  format_decomp r

/-- Claim C9: the formatter is a pure total function of the record — on equal
records it yields identical output (and, being a Lean function into `String`,
it cannot mutate its argument or fail). -/
theorem C9_format_deterministic (r s : WordRecord) (h : r = s) :
    format_sms_message r = format_sms_message s := by
  rw [h]

theorem C9_format_deterministic_witness :
    (⟨"Hi", "", "d", "e"⟩ : WordRecord) = ⟨"Hi", "", "d", "e"⟩ ∧
      format_sms_message ⟨"Hi", "", "d", "e"⟩ = format_sms_message ⟨"Hi", "", "d", "e"⟩ :=
  ⟨rfl, C9_format_deterministic ⟨"Hi", "", "d", "e"⟩ ⟨"Hi", "", "d", "e"⟩ rfl⟩

/-- Claim C1: for every raw entry with a non-empty trimmed title, extraction
returns a record whose `word` is the trimmed title (it is a total function of
the entry, so no description can make it fail), and each of the other three
fields independently degrades to the empty string when its pattern finds
nothing (for the definition: when both the structure-aware match and the
paragraph fallback find nothing). -/
theorem C1_word_eq_trimmed_title (e : RawEntry) (h : pyStrip e.title ≠ "") :
    (get_word_of_the_day e).word = pyStrip e.title ∧
      (posSearch e.description = none → (get_word_of_the_day e).part_of_speech = "") ∧
      (defSearch (pyStrip e.title) e.description = none ∧
          fallbackScan (pyStrip e.title) (findParagraphs e.description) = "" →
        (get_word_of_the_day e).definition = "") ∧
      (exSearch e.description = none → (get_word_of_the_day e).«example» = "") := by
  refine ⟨gw_word e, ?_, ?_, ?_⟩
  · intro hp
    rw [gw_pos, hp]
    rfl
  · intro ⟨h1, h2⟩
    rw [gw_def, h1]
    exact h2
  · intro hx
    rw [gw_example, hx]
    rfl

theorem C1_word_eq_trimmed_title_witness :
    pyStrip "Hello " ≠ "" ∧
      ((get_word_of_the_day ⟨"Hello ", "x"⟩).word = pyStrip "Hello " ∧
        (posSearch "x" = none → (get_word_of_the_day ⟨"Hello ", "x"⟩).part_of_speech = "") ∧
        (defSearch (pyStrip "Hello ") "x" = none ∧
            fallbackScan (pyStrip "Hello ") (findParagraphs "x") = "" →
          (get_word_of_the_day ⟨"Hello ", "x"⟩).definition = "") ∧
        (exSearch "x" = none → (get_word_of_the_day ⟨"Hello ", "x"⟩).«example» = "")) :=
  ⟨by decide, C1_word_eq_trimmed_title ⟨"Hello ", "x"⟩ (by decide)⟩

/-- Modelled from the spec (step 4 of the extraction algorithm): strip a
single trailing period — one only, even when the text ends with several.
Used to compare the spec's words against the code's `rstrip('.')`. -/
def specStripSingleDot (s : String) : String :=
  if s.data.getLast? = some '.' then ⟨s.data.dropLast⟩ else s

/-- Claim C6 counterexample: for the description `"// He waited..."` the code
strips the whole trailing run of periods (`rstrip('.')`), producing
`"He waited."` inside quotation marks, while stripping a single trailing
period as the claim states would produce `"He waited..."`. -/
theorem C6_counterexample :
    (get_word_of_the_day ⟨"Wait", "// He waited..."⟩).«example» = "\"He waited.\"" ∧
      "\"" ++ (specStripSingleDot "He waited..." ++ ".\"") = "\"He waited...\"" ∧
      ("\"He waited.\"" : String) ≠ "\"He waited...\"" := by
  decide

/-- Claim C6 as amended: when the double-slash marker is found, extraction
takes the matched text, strips markup, decodes entities, trims whitespace,
strips the entire trailing run of periods (not just one), appends a single
period and wraps the result in literal quotation marks; when the marker is
absent the example field is the empty string. -/
theorem C6_example_all_dots_stripped (e : RawEntry) :
    (get_word_of_the_day e).«example» =
      (exSearch e.description).elim ""
        (fun g => "\"" ++ (rstripDots (pyStrip (pyUnescape (pyStripTags g))) ++ ".\"")) := by
  cases h : exSearch e.description <;> simp [get_word_of_the_day, h]

/-- Claim C10: when the structure-aware match fails and the paragraph scan
produces a non-empty definition, that definition passes every filter of the
scan: it contains the headword case-insensitively, is longer than 30
characters, does not start with `//`, and contains neither `"See the entry"`
nor `"Examples:"`. -/
theorem C10_fallback_filters (e : RawEntry)
    (hd : defSearch (pyStrip e.title) e.description = none)
    (hne : (get_word_of_the_day e).definition ≠ "") :
    containsS (lowerS (get_word_of_the_day e).definition) (lowerS (pyStrip e.title)) = true ∧
      30 < (get_word_of_the_day e).definition.length ∧
      startsWithS (get_word_of_the_day e).definition "//" = false ∧
      containsS (get_word_of_the_day e).definition "See the entry" = false ∧
      containsS (get_word_of_the_day e).definition "Examples:" = false := by
  rw [gw_def, hd] at hne ⊢
  have hcand := (fallbackScan_result (pyStrip e.title)
    (findParagraphs e.description) (by simpa using hne)).1
  simp only [defCandidate, Bool.and_eq_true, Bool.not_eq_true', beq_iff_eq,
    decide_eq_true_eq] at hcand
  obtain ⟨⟨⟨⟨⟨-, h2⟩, h3⟩, h4⟩, h5⟩, h6⟩ := hcand
  simp only [Option.elim]
  exact ⟨h5, h6, by simp [h2], by simp [h3], by simp [h4]⟩

theorem C10_fallback_filters_witness :
    defSearch (pyStrip "lexicon") "<p>a lexicon is a nice long list of words for linguists</p>"
        = none ∧
      (get_word_of_the_day
          ⟨"lexicon", "<p>a lexicon is a nice long list of words for linguists</p>"⟩).definition
        ≠ "" ∧
      (containsS
          (lowerS (get_word_of_the_day
            ⟨"lexicon", "<p>a lexicon is a nice long list of words for linguists</p>"⟩).definition)
          (lowerS (pyStrip "lexicon")) = true ∧
        30 < (get_word_of_the_day
          ⟨"lexicon", "<p>a lexicon is a nice long list of words for linguists</p>"⟩).definition.length ∧
        startsWithS (get_word_of_the_day
          ⟨"lexicon", "<p>a lexicon is a nice long list of words for linguists</p>"⟩).definition "//"
          = false ∧
        containsS (get_word_of_the_day
          ⟨"lexicon", "<p>a lexicon is a nice long list of words for linguists</p>"⟩).definition
          "See the entry" = false ∧
        containsS (get_word_of_the_day
          ⟨"lexicon", "<p>a lexicon is a nice long list of words for linguists</p>"⟩).definition
          "Examples:" = false) :=
  ⟨by decide, by decide,
    C10_fallback_filters
      ⟨"lexicon", "<p>a lexicon is a nice long list of words for linguists</p>"⟩
      (by decide) (by decide)⟩

/-- Is the first character fixed under upper-casing (trivially true when
empty)? -/
def firstCharUpper (s : String) : Bool :=
  match s.data with
  | [] => true
  | c :: _ => c.toUpper = c

/-- Claim C5 counterexample: the paragraph-scanning fallback does not
capitalize — here it returns a definition starting with a lower-case `a`, so
the first character of the extracted definition is not upper-cased. -/
theorem C5_counterexample :
    (get_word_of_the_day
        ⟨"Apple", "<p>an apple a day keeps the doctor away from here</p>"⟩).definition
      = "an apple a day keeps the doctor away from here" ∧
    firstCharUpper "an apple a day keeps the doctor away from here" = false := by
  decide

/-- Claim C5 as amended: every non-empty extracted definition is the
tag-stripped, entity-decoded, whitespace-trimmed cleanup of some matched text
(possibly with its first character additionally upper-cased), and the first
character is upper-cased whenever the primary structure-aware match produced
the definition; the paragraph-scanning fallback does not capitalize. -/
theorem C5_definition_cleanup (e : RawEntry)
    (h : (get_word_of_the_day e).definition ≠ "") :
    (∃ t : String,
        (get_word_of_the_day e).definition = pyStrip (pyUnescape (pyStripTags t)) ∨
        (get_word_of_the_day e).definition = capFirst (pyStrip (pyUnescape (pyStripTags t)))) ∧
      ((defSearch (pyStrip e.title) e.description).isSome →
        ∃ c : Char, ∃ rest : List Char,
          ((get_word_of_the_day e).definition).data = c.toUpper :: rest) := by
  rw [gw_def] at h ⊢
  cases hd : defSearch (pyStrip e.title) e.description with
  | none =>
    rw [hd] at h
    simp only [Option.elim] at h ⊢
    refine ⟨?_, by simp⟩
    obtain ⟨-, p, hp⟩ := fallbackScan_result (pyStrip e.title)
      (findParagraphs e.description) h
    exact ⟨p, Or.inl hp⟩
  | some g =>
    rw [hd] at h
    simp only [Option.elim] at h ⊢
    by_cases hz : pyStrip (pyUnescape (pyStripTags g)) = ""
    · rw [if_pos hz] at h
      exact absurd hz h
    · rw [if_neg hz] at h ⊢
      refine ⟨⟨g, Or.inr rfl⟩, ?_⟩
      intro hs
      have hdata : (pyStrip (pyUnescape (pyStripTags g))).data ≠ [] :=
        (str_ne_empty_iff_data _).mp hz
      cases hc : (pyStrip (pyUnescape (pyStripTags g))).data with
      | nil => exact absurd hc hdata
      | cons c rest =>
        refine ⟨c, rest, ?_⟩
        simp [capFirst, hc]

theorem C5_definition_cleanup_witness :
    (get_word_of_the_day ⟨"Resile", "<p><em>Resile</em> means to draw back.</p>"⟩).definition
        ≠ "" ∧
      ((∃ t : String,
          (get_word_of_the_day
              ⟨"Resile", "<p><em>Resile</em> means to draw back.</p>"⟩).definition
            = pyStrip (pyUnescape (pyStripTags t)) ∨
          (get_word_of_the_day
              ⟨"Resile", "<p><em>Resile</em> means to draw back.</p>"⟩).definition
            = capFirst (pyStrip (pyUnescape (pyStripTags t)))) ∧
        ((defSearch (pyStrip "Resile") "<p><em>Resile</em> means to draw back.</p>").isSome →
          ∃ c : Char, ∃ rest : List Char,
            ((get_word_of_the_day
                ⟨"Resile", "<p><em>Resile</em> means to draw back.</p>"⟩).definition).data
              = c.toUpper :: rest)) :=
  ⟨by decide,
    C5_definition_cleanup ⟨"Resile", "<p><em>Resile</em> means to draw back.</p>"⟩ (by decide)⟩

/-- Claim C8: the formatter's output always begins with
`"Word of the Day: "`, the upper-cased word and a blank line, immediately
followed by `"(" ++ part_of_speech ++ ") "` exactly when the part of speech is
non-empty. -/
theorem C8_output_header (r : WordRecord) :
    ∃ rest : String,
      format_sms_message r =
        "Word of the Day: " ++ (upperS r.word ++ ("\n\n" ++
          ((if r.part_of_speech ≠ "" then "(" ++ (r.part_of_speech ++ ") ") else "")
            ++ rest))) := by
  refine ⟨truncatedDef r ++
    (if r.«example» ≠ "" ∧ (sms_before_example r).length + r.«example».length < 300
     then "\n\n" ++ r.«example» else ""), ?_⟩
  have h1 : format_sms_message r =
      sms_before_example r ++
        (if r.«example» ≠ "" ∧ (sms_before_example r).length + r.«example».length < 300
         then "\n\n" ++ r.«example» else "") := by
    rw [format_decomp]
    by_cases hc : r.«example» ≠ "" ∧ (sms_before_example r).length + r.«example».length < 300
    · rw [if_pos hc, if_pos hc]
    · rw [if_neg hc, if_neg hc, str_append_empty]
  rw [h1]
  by_cases hp : r.part_of_speech ≠ ""
  · rw [if_pos hp]
    apply String.ext
    simp [sms_before_example, sms_header_pos, hp, strdata_append, List.append_assoc]
  · rw [if_neg hp]
    apply String.ext
    simp [sms_before_example, sms_header_pos, hp, strdata_append, List.append_assoc]

/-- The record of the C3 counterexample: a 100-character word exhausts the
120-character window, driving the dynamic definition budget down to 1. -/
def c3LongWordRec : WordRecord :=
  { word := "WWWWWWWWWWWWWWWWWWWWWWWWWWWWWWWWWWWWWWWWWWWWWWWWWWWWWWWWWWWWWWWWWWWWWWWWWWWWWWWWWWWWWWWWWWWWWWWWWWWW"
    part_of_speech := ""
    definition := "abcdef"
    «example» := "" }

set_option maxRecDepth 10000 in
/-- Claim C3 counterexample: with the budget computed as 1, Python's negative
slice `definition[:1-3]` keeps four of the six characters, so the emitted
definition segment `"abcd..."` (7 characters) exceeds the dynamically computed
cap instead of respecting it. -/
theorem C3_counterexample :
    format_sms_message c3LongWordRec = sms_header_pos c3LongWordRec ++ truncatedDef c3LongWordRec ∧
      truncatedDef c3LongWordRec = "abcd..." ∧
      defBudget c3LongWordRec = 1 ∧
      ¬ (((truncatedDef c3LongWordRec).length : Int) ≤ defBudget c3LongWordRec) := by
  decide

/-- Claim C3 as amended: whenever the dynamically computed budget
`120 - len(header + part-of-speech prefix)` is at least 3 and the definition
is longer than the budget, the formatter emits exactly the first
`budget - 3` characters of the definition followed by a three-character
ellipsis, and the emitted definition segment's length equals the budget (so it
never exceeds it).  When the budget is below 3, Python's negative slicing can
instead produce a segment longer than the budget. -/
theorem C3_truncation_within_budget (r : WordRecord)
    (h3 : 3 ≤ defBudget r) (hov : defBudget r < (r.definition.length : Int)) :
    (∃ rest : String,
        format_sms_message r = sms_header_pos r ++ (truncatedDef r ++ rest)) ∧
      truncatedDef r = pySliceTo r.definition (defBudget r - 3) ++ "..." ∧
      ((truncatedDef r).length : Int) = defBudget r := by
  have htr : truncatedDef r = pySliceTo r.definition (defBudget r - 3) ++ "..." := by
    unfold truncatedDef
    rw [if_pos hov]
  have hslice : ((pySliceTo r.definition (defBudget r - 3)).length : Int) = defBudget r - 3 := by
    simp only [pySliceTo, strlen_mk]
    rw [if_neg (by omega)]
    rw [List.length_take]
    have hdata : r.definition.data.length = r.definition.length := rfl
    omega
  have hlen3 : ("..." : String).length = 3 := rfl
  have hl : ((truncatedDef r).length : Int) = defBudget r := by
    rw [htr, strlen_append]
    push_cast
    omega
  refine ⟨?_, htr, hl⟩
  refine ⟨(if r.«example» ≠ "" ∧ (sms_before_example r).length + r.«example».length < 300
           then "\n\n" ++ r.«example» else ""), ?_⟩
  rw [format_decomp]
  by_cases hc : r.«example» ≠ "" ∧ (sms_before_example r).length + r.«example».length < 300
  · rw [if_pos hc, if_pos hc]
    apply String.ext
    simp [sms_before_example, strdata_append, List.append_assoc]
  · rw [if_neg hc, if_neg hc]
    apply String.ext
    simp [sms_before_example, strdata_append, List.append_assoc]

/-- The record of the C3 witness: an 11-character word, a part of speech and a
90-character definition, giving budget 83. -/
def c3WitnessRec : WordRecord :=
  { word := "Serendipity"
    part_of_speech := "noun"
    definition := "xxxxxxxxxxxxxxxxxxxxxxxxxxxxxxxxxxxxxxxxxxxxxxxxxxxxxxxxxxxxxxxxxxxxxxxxxxxxxxxxxxxxxxxx"
    «example» := "" }

theorem C3_truncation_within_budget_witness :
    3 ≤ defBudget c3WitnessRec ∧
      defBudget c3WitnessRec < ((c3WitnessRec.definition.length : Int)) ∧
      ((∃ rest : String,
          format_sms_message c3WitnessRec
            = sms_header_pos c3WitnessRec ++ (truncatedDef c3WitnessRec ++ rest)) ∧
        truncatedDef c3WitnessRec
          = pySliceTo c3WitnessRec.definition (defBudget c3WitnessRec - 3) ++ "..." ∧
        ((truncatedDef c3WitnessRec).length : Int) = defBudget c3WitnessRec) :=
  ⟨by decide, by decide, C3_truncation_within_budget c3WitnessRec (by decide) (by decide)⟩
